import Mathlib

/-!
Verification of the PyKraken outage client (`src/main.py`).

The development shallowly embeds the program:
* JSON values (`JVal`) model the decoded payloads handled by the script;
  Python dicts keyed by strings are association lists (`PyDict`).
* `datetime.fromisoformat` (Python 3.11 semantics, on the profile of
  ISO-8601 strings this program handles) is `fromisoformat`, producing a
  proleptic-Gregorian microsecond count plus an optional UTC offset;
  Python comparison of datetimes is `pyGE`.
* `filter_and_transform_outages` is embedded in the `Except` monad: a
  Python exception escaping the function is an `Except.error`.
* `fetch_data` is embedded as a function of an abstract transport
  (one outcome per attempt index) that also records the number of
  transport invocations and the list of sleep durations.
* `main` is embedded as `mainSteps`, the trace of pipeline steps reached
  for given fetch results.
-/

namespace PyKraken

/-- Decoded JSON values, as produced by `response.json()` in the script. -/
inductive JVal where
  | jnull
  | jbool (b : Bool)
  | jnum (n : Int)
  | jstr (s : String)
  | jarr (xs : List JVal)
  | jobj (fields : List (String × JVal))

mutual

/-- Structural equality of JSON values: the meaning of Python `==` on
decoded JSON payloads (used for dict-key comparison). -/
def jeq : JVal → JVal → Bool
  | .jnull, .jnull => true
  | .jbool a, .jbool b => a == b
  | .jnum a, .jnum b => a == b
  | .jstr a, .jstr b => a == b
  | .jarr xs, .jarr ys => jeqList xs ys
  | .jobj xs, .jobj ys => jeqFields xs ys
  | _, _ => false

/-- Structural equality on JSON arrays. -/
def jeqList : List JVal → List JVal → Bool
  | [], [] => true
  | x :: xs, y :: ys => jeq x y && jeqList xs ys
  | _, _ => false

/-- Structural equality on JSON object field lists. -/
def jeqFields : List (String × JVal) → List (String × JVal) → Bool
  | [], [] => true
  | (k, v) :: xs, (l, w) :: ys => k == l && jeq v w && jeqFields xs ys
  | _, _ => false

end

/-- A Python dict with string keys, as an association list in insertion
order (Python dicts preserve insertion order; keys are unique in any
dict the program builds or receives). -/
abbrev PyDict := List (String × JVal)

/-- The Python exceptions the embedded code can raise. -/
inductive PyErr where
  | keyError
  | typeError
  | valueError
  | nameError
deriving DecidableEq

/-- `d[k]` lookup on a string-keyed dict: first binding of `k`. -/
def dget : PyDict → String → Option JVal
  | [], _ => none
  | (k', v) :: rest, k => if k' = k then some v else dget rest k

/-- `{**d, k: v}` / `d[k] = v`: overwrite the binding of `k` in place if
present, otherwise append it (Python dict update semantics). -/
def dinsert : PyDict → String → JVal → PyDict
  | [], k, v => [(k, v)]
  | (k', v') :: rest, k, v =>
    if k' = k then (k, v) :: rest else (k', v') :: dinsert rest k v

/-- Lookup in a dict keyed by JSON values (the device-id → name map),
using Python value equality `jeq`. -/
def aget : List (JVal × JVal) → JVal → Option JVal
  | [], _ => none
  | (k', v) :: rest, k => if jeq k' k then some v else aget rest k

/-- `m[k] = v` on a JSON-keyed dict: overwrite in place or append. -/
def assocSet : List (JVal × JVal) → JVal → JVal → List (JVal × JVal)
  | [], k, v => [(k, v)]
  | (k', v') :: rest, k, v =>
    if jeq k' k then (k, v) :: rest else (k', v') :: assocSet rest k v

/-- `k in m` on a JSON-keyed dict: key membership. -/
def kmem (k : JVal) (m : List (JVal × JVal)) : Bool :=
  (aget m k).isSome

/-! ## The `datetime` fragment used by the program

`datetime.fromisoformat` yields a datetime with an optional fixed UTC
offset.  We represent a datetime by its proleptic-Gregorian timestamp in
microseconds (counted from 0001-01-01 00:00:00, mirroring CPython's
ordinal arithmetic) together with the optional offset in minutes. -/

/-- A Python `datetime`: local timestamp in microseconds since
0001-01-01 00:00:00, plus the `tzinfo` UTC offset in minutes (`none` for
a naive datetime). -/
structure PyDatetime where
  usec : Nat
  offset : Option Int
deriving DecidableEq

/-- Gregorian leap-year test, as in CPython `datetime`. -/
def isLeap (y : Nat) : Bool :=
  y % 4 == 0 && (y % 100 != 0 || y % 400 == 0)

/-- Days in month `m` of year `y` (month 1..12). -/
def daysInMonth (y m : Nat) : Nat :=
  if m = 2 then (if isLeap y then 29 else 28)
  else if m = 4 ∨ m = 6 ∨ m = 9 ∨ m = 11 then 30
  else 31

/-- Days before January 1 of year `y` (CPython `_days_before_year`). -/
def daysBeforeYear (y : Nat) : Nat :=
  let n := y - 1
  n * 365 + n / 4 - n / 100 + n / 400

/-- Days in year `y` before the first of month `m`. -/
def daysBeforeMonth (y m : Nat) : Nat :=
  (List.range (m - 1)).foldl (fun a k => a + daysInMonth y (k + 1)) 0

/-- Proleptic-Gregorian ordinal of a date (0001-01-01 is day 1),
CPython `_ymd2ord`. -/
def ymdToOrdinal (y m d : Nat) : Nat :=
  daysBeforeYear y + daysBeforeMonth y m + d

/-- Microsecond timestamp of a local datetime. -/
def usecOf (y mo d h mi s us : Nat) : Nat :=
  (((ymdToOrdinal y mo d * 24 + h) * 60 + mi) * 60 + s) * 1000000 + us

/-- The UTC instant of a datetime, in microseconds (offset applied);
for a naive datetime this is just its local timestamp. -/
def toInstant (dt : PyDatetime) : Int :=
  (dt.usec : Int) - dt.offset.getD 0 * 60000000

/-- Python `a >= b` on two datetimes: aware datetimes compare by UTC
instant, naive ones by local timestamp, and comparing naive with aware
raises `TypeError`. -/
def pyGE (a b : PyDatetime) : Except PyErr Bool :=
  match a.offset, b.offset with
  | some _, some _ => .ok (decide (toInstant b ≤ toInstant a))
  | none, none => .ok (decide (b.usec ≤ a.usec))
  | _, _ => .error .typeError

/-! ## `datetime.fromisoformat` on the program's input profile -/

/-- Numeric value of a decimal digit character. -/
def digitVal (c : Char) : Nat := c.toNat - '0'.toNat

/-- Read exactly `n` decimal digits, returning their value and the rest
of the input. -/
def readNDigits : Nat → List Char → Option (Nat × List Char)
  | 0, cs => some (0, cs)
  | _ + 1, [] => none
  | n + 1, c :: cs =>
    if c.isDigit then
      match readNDigits n cs with
      | some (v, rest) => some (digitVal c * 10 ^ n + v, rest)
      | none => none
    else none

/-- Consume one expected character. -/
def expectChar (c : Char) : List Char → Option (List Char)
  | [] => none
  | x :: xs => if x = c then some xs else none

/-- Split off a maximal run of decimal digits. -/
def takeDigits : List Char → List Char × List Char
  | [] => ([], [])
  | c :: cs =>
    if c.isDigit then
      let (ds, r) := takeDigits cs
      (c :: ds, r)
    else ([], c :: cs)

/-- Value in microseconds of a fractional-seconds digit run (first six
digits significant, right-padded with zeros). -/
def fracVal (ds : List Char) : Nat :=
  ((ds.take 6).foldl (fun a c => a * 10 + digitVal c) 0) * 10 ^ (6 - min ds.length 6)

/-- Parse a UTC-offset suffix: empty (naive), `Z`/`z`, or `±HH:MM`.
Returns `none` on malformed input, `some off` otherwise. -/
def readOffset : List Char → Option (Option Int)
  | [] => some none
  | ['Z'] => some (some 0)
  | ['z'] => some (some 0)
  | sign :: rest =>
    if sign = '+' ∨ sign = '-' then
      match readNDigits 2 rest with
      | none => none
      | some (oh, r1) =>
        match expectChar ':' r1 with
        | none => none
        | some r2 =>
          match readNDigits 2 r2 with
          | none => none
          | some (om, r3) =>
            if r3 = [] ∧ oh ≤ 23 ∧ om ≤ 59 then
              some (some (if sign = '+' then (oh * 60 + om : Int) else -(oh * 60 + om : Int)))
            else none
    else none

/-- Parse the time-of-day part `HH:MM:SS[.f+][offset]` into a local
microsecond count within the day plus the offset. -/
def readTime (cs : List Char) : Option (Nat × Option Int) :=
  match readNDigits 2 cs with
  | none => none
  | some (h, cs1) =>
    match expectChar ':' cs1 with
    | none => none
    | some cs2 =>
      match readNDigits 2 cs2 with
      | none => none
      | some (mi, cs3) =>
        match expectChar ':' cs3 with
        | none => none
        | some cs4 =>
          match readNDigits 2 cs4 with
          | none => none
          | some (s, cs5) =>
            if 23 < h ∨ 59 < mi ∨ 59 < s then none
            else
              match cs5 with
              | '.' :: rest =>
                match takeDigits rest with
                | ([], _) => none
                | (ds, r) =>
                  match readOffset r with
                  | none => none
                  | some off => some (((h * 60 + mi) * 60 + s) * 1000000 + fracVal ds, off)
              | other =>
                match readOffset other with
                | none => none
                | some off => some (((h * 60 + mi) * 60 + s) * 1000000, off)

/-- `datetime.fromisoformat` (Python 3.11 semantics on this program's
input profile): `YYYY-MM-DD[{T, }HH:MM:SS[.f+][Z | ±HH:MM]]`, with field
range validation.  Returns `none` exactly when CPython raises
`ValueError`. -/
def fromisoformat (str : String) : Option PyDatetime :=
  match readNDigits 4 str.toList with
  | none => none
  | some (y, cs1) =>
    match expectChar '-' cs1 with
    | none => none
    | some cs2 =>
      match readNDigits 2 cs2 with
      | none => none
      | some (mo, cs3) =>
        match expectChar '-' cs3 with
        | none => none
        | some cs4 =>
          match readNDigits 2 cs4 with
          | none => none
          | some (d, cs5) =>
            if y < 1 ∨ mo < 1 ∨ 12 < mo ∨ d < 1 ∨ daysInMonth y mo < d then none
            else
              match cs5 with
              | [] => some ⟨usecOf y mo d 0 0 0 0, none⟩
              | sep :: cs6 =>
                if sep = 'T' ∨ sep = ' ' then
                  match readTime cs6 with
                  | none => none
                  | some (dayUsec, off) =>
                    some ⟨ymdToOrdinal y mo d * 86400000000 + dayUsec, off⟩
                else none

/-- The cutoff datetime the program builds from
`"2022-01-01T00:00:00.000Z"`: midnight 2022-01-01 at UTC offset 0. -/
def cutoffDT : PyDatetime := ⟨usecOf 2022 1 1 0 0 0 0, some 0⟩

/-! ## `filter_and_transform_outages` (src/main.py lines 91-109)

The function body is a dict comprehension over `site_info["devices"]`
followed by a list comprehension over `outages`; any Python exception it
raises is an `Except.error`. -/

/-- The dict comprehension
`{device["id"]: device["name"] for device in site_info["devices"]}`,
processed left to right with a later duplicate id overwriting an
earlier one. -/
def buildDeviceMap : List JVal → List (JVal × JVal) → Except PyErr (List (JVal × JVal))
  | [], m => .ok m
  | d :: rest, m =>
    match d with
    | .jobj fds =>
      match dget fds "id" with
      | none => .error .keyError
      | some idv =>
        match dget fds "name" with
        | none => .error .keyError
        | some nv => buildDeviceMap rest (assocSet m idv nv)
    | _ => .error .typeError

/-- `site_info["devices"]` subscript followed by the device-map
comprehension (line 103 of src/main.py). -/
def deviceMapOf (site_info : PyDict) : Except PyErr (List (JVal × JVal)) :=
  match dget site_info "devices" with
  | none => .error .keyError
  | some (.jarr devs) => buildDeviceMap devs []
  | some _ => .error .typeError

/-- The comprehension condition for one outage (line 108):
`datetime.fromisoformat(outage["begin"]) >= cutoff_datetime and
outage["id"] in device_id_name_map`, with Python evaluation order and
short-circuiting. -/
def retainCheck (cutoff : PyDatetime) (m : List (JVal × JVal)) (o : PyDict) :
    Except PyErr Bool :=
  match dget o "begin" with
  | none => .error .keyError
  | some bv =>
    match bv with
    | .jstr s =>
      match fromisoformat s with
      | none => .error .valueError
      | some dt =>
        match pyGE dt cutoff with
        | .error e => .error e
        | .ok ge =>
          if ge then
            match dget o "id" with
            | none => .error .keyError
            | some idv => .ok (kmem idv m)
          else .ok false
    | _ => .error .typeError

/-- The comprehension element for a retained outage (line 106):
`{**outage, "name": device_id_name_map[outage["id"]]}`. -/
def enrichOutage (m : List (JVal × JVal)) (o : PyDict) : Except PyErr PyDict :=
  match dget o "id" with
  | none => .error .keyError
  | some idv =>
    match aget m idv with
    | none => .error .keyError
    | some nv => .ok (dinsert o "name" nv)

/-- The list comprehension over the outages (lines 105-109): for each
outage in order, evaluate the condition, then for a retained outage the
element expression, then continue with the rest. -/
def ftList (cutoff : PyDatetime) (m : List (JVal × JVal)) :
    List PyDict → Except PyErr (List PyDict)
  | [] => .ok []
  | o :: rest =>
    match retainCheck cutoff m o with
    | .error e => .error e
    | .ok true =>
      match enrichOutage m o with
      | .error e => .error e
      | .ok y =>
        match ftList cutoff m rest with
        | .error e => .error e
        | .ok ys => .ok (y :: ys)
    | .ok false => ftList cutoff m rest

/-- `filter_and_transform_outages` (src/main.py lines 91-109): parse the
cutoff, build the device-id → name map, then run the comprehension. -/
def filter_and_transform_outages (outages : List PyDict) (site_info : PyDict) :
    Except PyErr (List PyDict) :=
  match fromisoformat "2022-01-01T00:00:00.000Z" with
  | none => .error .valueError
  | some cutoff =>
    match deviceMapOf site_info with
    | .error e => .error e
    | .ok m => ftList cutoff m outages

/-! ## `fetch_data` (src/main.py lines 15-62)

The transport is abstracted as a function from the attempt index to the
outcome of `requests.request` on that attempt: a response with a status
code and decoded JSON body, a `requests.Timeout`, or a generic
`requests.RequestException` (for example a connection error).  The
embedding records the number of transport invocations and the sleep
durations, and tracks whether the local variable `response` is bound,
because the generic exception handler at line 59 reads
`response.content`. -/

/-- Outcome of one `requests.request` call. -/
inductive Outcome where
  | resp (code : Nat) (body : JVal)
  | timeout
  | reqError

/-- Observable result of a `fetch_data` run: the returned value (or the
Python exception that escaped), the number of transport invocations,
and the `time.sleep` durations in order. -/
structure FetchRes where
  result : Except PyErr (Option JVal)
  attempts : Nat
  sleeps : List ℚ

/-- The retry loop of `fetch_data` from attempt index `i` with `rem`
attempts remaining; `bound` records whether the local `response`
variable has been assigned by an earlier attempt. -/
def fetchAux (t : Nat → Outcome) (b : ℚ) : Nat → Nat → Bool → FetchRes
  | _, 0, _ => ⟨.ok none, 0, []⟩
  | i, rem + 1, bound =>
    match t i with
    | .timeout =>
      -- line 50: caught, logged, loop continues; `response` untouched.
      let r := fetchAux t b (i + 1) rem bound
      ⟨r.result, r.attempts + 1, r.sleeps⟩
    | .reqError =>
      -- lines 57-60: the handler reads `response.content`; if `response`
      -- was never assigned this raises UnboundLocalError (a NameError),
      -- which no handler catches, so it escapes `fetch_data`.
      if bound then
        let r := fetchAux t b (i + 1) rem bound
        ⟨r.result, r.attempts + 1, r.sleeps⟩
      else ⟨.error .nameError, 1, []⟩
    | .resp code body =>
      if code = 429 then
        -- lines 37-41: sleep backoff_factor * 2 ** i, then retry.
        let r := fetchAux t b (i + 1) rem true
        ⟨r.result, r.attempts + 1, b * 2 ^ i :: r.sleeps⟩
      else if code = 400 then
        -- lines 43-45: log and return None immediately.
        ⟨.ok none, 1, []⟩
      else if 400 ≤ code ∧ code < 600 then
        -- line 47: raise_for_status raises HTTPError; caught at 52-56,
        -- logged, loop continues.
        let r := fetchAux t b (i + 1) rem true
        ⟨r.result, r.attempts + 1, r.sleeps⟩
      else
        -- line 48: success, return response.json().
        ⟨.ok (some body), 1, []⟩

/-- `fetch_data(endpoint, method, data, retries, backoff_factor)`:
run the retry loop `for i in range(retries)` and return `None` if it
exhausts all attempts. -/
def fetch_data (t : Nat → Outcome) (retries : Nat) (backoff_factor : ℚ) : FetchRes :=
  fetchAux t backoff_factor 0 retries false

/-! ## `main` (src/main.py lines 137-175)

The orchestration is embedded as the trace of pipeline steps reached,
parameterised by the results of the two fetches (the network is
external).  `if not x:` on a fetch result is Python truthiness: `None`
and empty containers are falsy. -/

/-- Python truthiness of a decoded JSON value. -/
def truthy : JVal → Bool
  | .jnull => false
  | .jbool b => b
  | .jnum n => n != 0
  | .jstr s => !(s == "")
  | .jarr xs => !xs.isEmpty
  | .jobj fds => !fds.isEmpty

/-- The pipeline steps of `main`. -/
inductive Step where
  | fetchOutages
  | fetchSiteInfo
  | filterTransform
  | post
deriving DecidableEq

/-- Coerce the decoded `/outages` payload to a list of dicts, as the
comprehension in `filter_and_transform_outages` consumes it. -/
def asDictList : JVal → Except PyErr (List PyDict)
  | .jarr xs =>
    xs.mapM (fun x =>
      match x with
      | .jobj f => Except.ok f
      | _ => Except.error PyErr.typeError)
  | _ => .error .typeError

/-- Coerce the decoded `/site-info` payload to a dict. -/
def asDict : JVal → Except PyErr PyDict
  | .jobj f => .ok f
  | _ => .error .typeError

/-- The filter/transform step as `main` invokes it on raw decoded JSON
(`processed_outages = filter_and_transform_outages(outages, site_info)`,
line 161): an error models a Python exception raised inside the step. -/
def runFilterJ (o s : JVal) : Except PyErr (List PyDict) :=
  match asDictList o with
  | .error e => .error e
  | .ok os =>
    match asDict s with
    | .error e => .error e
    | .ok sd => filter_and_transform_outages os sd

/-- Trace of pipeline steps reached by `main`, given the results of
`get_all_outages()` and `get_site_info("norwich-pear-tree")`.  `main`
returns early when `not outages` or `not site_info`; the post step
(line 168) is reached exactly when the filter step completes without
raising. -/
def mainSteps (oRes sRes : Option JVal) : List Step :=
  match oRes with
  | none => [.fetchOutages]
  | some o =>
    if truthy o then
      match sRes with
      | none => [.fetchOutages, .fetchSiteInfo]
      | some s =>
        if truthy s then
          match runFilterJ o s with
          | .error _ => [.fetchOutages, .fetchSiteInfo, .filterTransform]
          | .ok _ => [.fetchOutages, .fetchSiteInfo, .filterTransform, .post]
        else [.fetchOutages, .fetchSiteInfo]
    else [.fetchOutages]

/-! ## Specification-side definitions

The spec (section 4.3) describes the filter/transform step as: retain an
outage iff its `begin` timestamp parsed as ISO-8601 is on or after the
cutoff instant and its id exists in the device-name mapping, and enrich
each retained outage with the mapped name.  These definitions follow the
spec wording; the refinement theorems compare them with the embedded
source function. -/

/-- Spec wording, retention condition: the parsed `begin` instant is
on or after the cutoff instant, and the outage id is a key of the
device-name mapping. -/
def retainSpec (m : List (JVal × JVal)) (o : PyDict) : Bool :=
  (match dget o "begin" with
   | some (.jstr s) =>
     (match fromisoformat s with
      | some dt => decide (toInstant cutoffDT ≤ toInstant dt)
      | none => false)
   | _ => false)
  && (match dget o "id" with
      | some idv => kmem idv m
      | none => false)

/-- Spec wording, enrichment: the original record with an
added/overwritten `name` field set to the mapped device name. -/
def enrichSpec (m : List (JVal × JVal)) (o : PyDict) : PyDict :=
  match dget o "id" with
  | some idv =>
    (match aget m idv with
     | some nv => dinsert o "name" nv
     | none => o)
  | none => o

/-- Spec wording for the whole step: filter by the retention condition
in input order, then enrich each retained outage. -/
def filterAndTransformSpec (m : List (JVal × JVal)) (outages : List PyDict) :
    List PyDict :=
  (outages.filter (retainSpec m)).map (enrichSpec m)

/-- Well-formedness of one outage record for the filter step: it has a
string `begin` field that parses to a timezone-aware datetime, and it
has an `id` field.  (On such inputs no comparison `TypeError`, parse
`ValueError` or `KeyError` can occur.) -/
def outageWF (o : PyDict) : Bool :=
  (match dget o "begin", dget o "id" with
   | some (.jstr s), some _ =>
     (match fromisoformat s with
      | some dt => dt.offset.isSome
      | none => false)
   | _, _ => false)

/-! ## Concrete fixtures (the end-to-end scenario of spec section 8,
plus a boundary outage and a malformed one) -/

/-- Device `d1` named `Fridge`. -/
def deviceD1 : JVal := .jobj [("id", .jstr "d1"), ("name", .jstr "Fridge")]

/-- Site info with the single device `d1`. -/
def siteX : PyDict := [("devices", .jarr [deviceD1])]

/-- The device-id → name map built from `siteX`. -/
def mX : List (JVal × JVal) := [(.jstr "d1", .jstr "Fridge")]

/-- Outage for `d1` beginning after the cutoff. -/
def o1 : PyDict := [("id", .jstr "d1"), ("begin", .jstr "2022-06-01T00:00:00+00:00")]

/-- Outage for the unknown device `d2` beginning before the cutoff. -/
def o2 : PyDict := [("id", .jstr "d2"), ("begin", .jstr "2021-01-01T00:00:00+00:00")]

/-- Outage for `d1` beginning exactly at the cutoff instant. -/
def o3 : PyDict := [("id", .jstr "d1"), ("begin", .jstr "2022-01-01T00:00:00+00:00")]

/-- The scenario outage list. -/
def outagesX : List PyDict := [o1, o2, o3]

/-- `o1` enriched with the device name. -/
def e1 : PyDict :=
  [("id", .jstr "d1"), ("begin", .jstr "2022-06-01T00:00:00+00:00"), ("name", .jstr "Fridge")]

/-- `o3` enriched with the device name. -/
def e3 : PyDict :=
  [("id", .jstr "d1"), ("begin", .jstr "2022-01-01T00:00:00+00:00"), ("name", .jstr "Fridge")]

/-- An outage whose `begin` field is not a parseable timestamp. -/
def badOutage : PyDict := [("id", .jstr "d1"), ("begin", .jstr "not-a-date")]

/-- A transport that is rate-limited on attempts 0, 1 and 2 and succeeds
with the given body on attempt 3. -/
def t429x3 (body : JVal) : Nat → Outcome :=
  fun i => if i < 3 then .resp 429 .jnull else .resp 200 body

/-! ## Dictionary lemmas -/

theorem dget_dinsert_self (d : PyDict) (k : String) (v : JVal) :
    dget (dinsert d k v) k = some v := by
  induction d with
  | nil => simp [dinsert, dget]
  | cons p rest ih =>
    obtain ⟨k', v'⟩ := p
    by_cases h : k' = k
    · simp [dinsert, h, dget]
    · simp [dinsert, h, dget, ih]

theorem dget_dinsert_ne (d : PyDict) (k k' : String) (v : JVal) (h : k' ≠ k) :
    dget (dinsert d k v) k' = dget d k' := by
  have hne : k ≠ k' := Ne.symm h
  induction d with
  | nil => simp [dinsert, dget, hne]
  | cons p rest ih =>
    obtain ⟨k0, v0⟩ := p
    by_cases h0 : k0 = k
    · subst h0
      simp [dinsert, dget, hne]
    · simp [dinsert, h0, dget, ih]

theorem dinsert_dinsert (d : PyDict) (k : String) (v w : JVal) :
    dinsert (dinsert d k v) k w = dinsert d k w := by
  induction d with
  | nil => simp [dinsert]
  | cons p rest ih =>
    obtain ⟨k0, v0⟩ := p
    by_cases h0 : k0 = k
    · simp [dinsert, h0]
    · simp [dinsert, h0, ih]

/-! ## Evaluation of the cutoff and the shape of the filter function -/

theorem cutoff_eval : fromisoformat "2022-01-01T00:00:00.000Z" = some cutoffDT := rfl

theorem filter_eq (outages : List PyDict) (site_info : PyDict) :
    filter_and_transform_outages outages site_info =
      match deviceMapOf site_info with
      | .error e => .error e
      | .ok m => ftList cutoffDT m outages := by
  unfold filter_and_transform_outages
  rw [cutoff_eval]

/-! ## The filter under well-formed inputs -/

theorem outageWF_inv (o : PyDict) (h : outageWF o = true) :
    ∃ s dt idv, dget o "begin" = some (.jstr s) ∧ fromisoformat s = some dt ∧
      (∃ off, dt.offset = some off) ∧ dget o "id" = some idv := by
  unfold outageWF at h
  split at h
  case h_1 s idv heq1 heq2 =>
    split at h
    case h_1 dt hp =>
      rcases Option.isSome_iff_exists.mp h with ⟨off, hoff⟩
      exact ⟨s, dt, idv, heq1, hp, ⟨off, hoff⟩, heq2⟩
    case h_2 => simp at h
  case h_2 => simp at h

theorem retainCheck_of_wf (m : List (JVal × JVal)) (o : PyDict) (h : outageWF o = true) :
    retainCheck cutoffDT m o = .ok (retainSpec m o) := by
  obtain ⟨s, dt, idv, hb, hp, ⟨off, hoff⟩, hid⟩ := outageWF_inv o h
  have hge : pyGE dt cutoffDT = .ok (decide (toInstant cutoffDT ≤ toInstant dt)) := by
    unfold pyGE
    rw [hoff]
    rfl
  unfold retainCheck retainSpec
  simp only [hb, hp, hid, hge]
  by_cases hc : toInstant cutoffDT ≤ toInstant dt <;> simp [hc]

theorem retainSpec_id (m : List (JVal × JVal)) (o : PyDict) (h : retainSpec m o = true) :
    ∃ idv, dget o "id" = some idv ∧ kmem idv m = true := by
  unfold retainSpec at h
  rw [Bool.and_eq_true] at h
  obtain ⟨h1, h2⟩ := h
  split at h2
  case h_1 idv heq => exact ⟨idv, heq, h2⟩
  case h_2 => simp at h2

theorem enrichOutage_of_kmem (m : List (JVal × JVal)) (o : PyDict) (idv : JVal)
    (hid : dget o "id" = some idv) (hk : kmem idv m = true) :
    enrichOutage m o = .ok (enrichSpec m o) := by
  unfold kmem at hk
  rcases Option.isSome_iff_exists.mp hk with ⟨nv, hv⟩
  unfold enrichOutage enrichSpec
  simp only [hid, hv]

theorem ftList_wf (m : List (JVal × JVal)) (outages : List PyDict)
    (h : outages.all outageWF = true) :
    ftList cutoffDT m outages = .ok (filterAndTransformSpec m outages) := by
  induction outages with
  | nil => rfl
  | cons o rest ih =>
    rw [List.all_cons, Bool.and_eq_true] at h
    obtain ⟨h1, h2⟩ := h
    have hrc := retainCheck_of_wf m o h1
    have ihr := ih h2
    unfold ftList
    rw [hrc]
    cases hr : retainSpec m o with
    | false =>
      simpa [filterAndTransformSpec, List.filter_cons, hr] using ihr
    | true =>
      obtain ⟨idv, hid, hk⟩ := retainSpec_id m o hr
      have he := enrichOutage_of_kmem m o idv hid hk
      simp only [he, ihr]
      simp [filterAndTransformSpec, List.filter_cons, hr]

theorem retainCheck_dinsert_name (cutoff : PyDatetime) (m : List (JVal × JVal))
    (o : PyDict) (nv : JVal) :
    retainCheck cutoff m (dinsert o "name" nv) = retainCheck cutoff m o := by
  have h1 : dget (dinsert o "name" nv) "begin" = dget o "begin" :=
    dget_dinsert_ne o "name" "begin" nv (by decide)
  have h2 : dget (dinsert o "name" nv) "id" = dget o "id" :=
    dget_dinsert_ne o "name" "id" nv (by decide)
  unfold retainCheck
  rw [h1, h2]

theorem ftList_idem (cutoff : PyDatetime) (m : List (JVal × JVal)) :
    ∀ xs ys : List PyDict, ftList cutoff m xs = .ok ys → ftList cutoff m ys = .ok ys := by
  intro xs
  induction xs with
  | nil =>
    intro ys h
    unfold ftList at h
    rw [Except.ok.injEq] at h
    subst h
    rfl
  | cons o rest ih =>
    intro ys h
    unfold ftList at h
    split at h
    case h_1 e heqR => exact Except.noConfusion h
    case h_2 heqR =>
      split at h
      case h_1 e heqE => exact Except.noConfusion h
      case h_2 y0 heqE =>
        split at h
        case h_1 e heqF => exact Except.noConfusion h
        case h_2 ys' heqF =>
          rw [Except.ok.injEq] at h
          subst h
          unfold enrichOutage at heqE
          split at heqE
          case h_1 => exact Except.noConfusion heqE
          case h_2 idv hid =>
            split at heqE
            case h_1 => exact Except.noConfusion heqE
            case h_2 nv hv =>
              rw [Except.ok.injEq] at heqE
              obtain rfl : y0 = dinsert o "name" nv := heqE.symm
              have hrc2 : retainCheck cutoff m (dinsert o "name" nv) = .ok true :=
                (retainCheck_dinsert_name cutoff m o nv).trans heqR
              have hidy : dget (dinsert o "name" nv) "id" = some idv :=
                (dget_dinsert_ne o "name" "id" nv (by decide)).trans hid
              have henr : enrichOutage m (dinsert o "name" nv) = .ok (dinsert o "name" nv) := by
                unfold enrichOutage
                simp only [hidy, hv, dinsert_dinsert]
              have hrest : ftList cutoff m ys' = .ok ys' := ih ys' heqF
              unfold ftList
              simp only [hrc2, henr, hrest]
    case h_3 heqR => exact ih ys h

theorem ftList_mem (cutoff : PyDatetime) (m : List (JVal × JVal)) :
    ∀ xs ys : List PyDict, ftList cutoff m xs = .ok ys → ∀ y ∈ ys,
      ∃ o ∈ xs, ∃ idv nv, dget o "id" = some idv ∧ aget m idv = some nv ∧
        y = dinsert o "name" nv := by
  intro xs
  induction xs with
  | nil =>
    intro ys h y hy
    unfold ftList at h
    rw [Except.ok.injEq] at h
    subst h
    simp at hy
  | cons o rest ih =>
    intro ys h y hy
    unfold ftList at h
    split at h
    case h_1 e heqR => exact Except.noConfusion h
    case h_2 heqR =>
      split at h
      case h_1 e heqE => exact Except.noConfusion h
      case h_2 y0 heqE =>
        split at h
        case h_1 e heqF => exact Except.noConfusion h
        case h_2 ys' heqF =>
          rw [Except.ok.injEq] at h
          subst h
          rcases List.mem_cons.mp hy with rfl | hmem
          · unfold enrichOutage at heqE
            split at heqE
            case h_1 => exact Except.noConfusion heqE
            case h_2 idv hid =>
              split at heqE
              case h_1 => exact Except.noConfusion heqE
              case h_2 nv hv =>
                rw [Except.ok.injEq] at heqE
                exact ⟨o, List.mem_cons_self o rest, idv, nv, hid, hv, heqE.symm⟩
          · obtain ⟨o', ho', rest'⟩ := ih ys' heqF y hmem
            exact ⟨o', List.mem_cons_of_mem o ho', rest'⟩
    case h_3 heqR =>
      obtain ⟨o', ho', rest'⟩ := ih ys h y hy
      exact ⟨o', List.mem_cons_of_mem o ho', rest'⟩

theorem fetchAux_timeout (b : ℚ) :
    ∀ r i bound, fetchAux (fun _ => Outcome.timeout) b i r bound = ⟨.ok none, r, []⟩
  | 0, _, _ => rfl
  | r + 1, i, bound => by
    have ih := fetchAux_timeout b r (i + 1) bound
    simp [fetchAux, ih]

/-! ## Claim theorems -/

/-- C1: for every outage list and site info, `filter_and_transform_outages`
retains an outage iff its `begin`, parsed as ISO-8601, is at or after the
cutoff instant 2022-01-01T00:00:00.000Z and its id is a key of the
device-name map, preserving input order and enriching each retained
record — i.e. on well-formed inputs the source function returns exactly
the spec-side filter-then-map (boundary `begin` equal to the cutoff
included by the `≤` in `retainSpec`). -/
theorem c1_filter_retains_iff (outages : List PyDict) (site_info : PyDict)
    (m : List (JVal × JVal)) (hm : deviceMapOf site_info = .ok m)
    (hwf : outages.all outageWF = true) :
    filter_and_transform_outages outages site_info =
      .ok (filterAndTransformSpec m outages) := by
  rw [filter_eq, hm]
  exact ftList_wf m outages hwf

/-- Witness for C1: the section-8 scenario plus a boundary outage whose
`begin` equals the cutoff instant (retained) evaluates as the spec-side
filter-then-map prescribes. -/
theorem c1_witness_scenario :
    filter_and_transform_outages outagesX siteX = .ok (filterAndTransformSpec mX outagesX) :=
  c1_filter_retains_iff outagesX siteX mX rfl rfl

/-- C3 (code bug): a transport that raises a generic
`requests.RequestException` (for example a connection error) on the
first attempt makes `fetch_data` itself raise: the handler at line 59
reads `response.content` while the local `response` was never assigned,
so an `UnboundLocalError` escapes the fetch layer instead of `None`
being returned. -/
theorem c3_transport_error_raises :
    fetch_data (fun _ => Outcome.reqError) 5 (1 / 2) = ⟨.error .nameError, 1, []⟩ := rfl

/-- Counterexample for C4: on an outage whose `begin` is the unparseable
string `"not-a-date"`, `filter_and_transform_outages` raises
`ValueError` (the claim said it never raises). -/
theorem c4_malformed_begin_raises :
    filter_and_transform_outages [badOutage] siteX = .error .valueError := rfl

/-- C4 as amended: a malformed `begin` timestamp makes
`filter_and_transform_outages` raise (`ValueError` propagates), while on
inputs whose outages all have a string `begin` parsing to an aware
ISO-8601 timestamp and an `id` field (with well-formed site info) the
function returns normally. -/
theorem c4_amended_behavior :
    filter_and_transform_outages [badOutage] siteX = .error PyErr.valueError ∧
    ∀ (outages : List PyDict) (site_info : PyDict) (m : List (JVal × JVal)),
      deviceMapOf site_info = .ok m → outages.all outageWF = true →
      ∃ ys, filter_and_transform_outages outages site_info = .ok ys := by
  refine ⟨rfl, ?_⟩
  intro outages site_info m hm hwf
  refine ⟨filterAndTransformSpec m outages, ?_⟩
  rw [filter_eq, hm]
  exact ftList_wf m outages hwf

/-- Witness for C4 (amended): the well-formed scenario inputs make the
function return normally. -/
theorem c4_witness_wellformed :
    ∃ ys, filter_and_transform_outages outagesX siteX = .ok ys :=
  c4_amended_behavior.2 outagesX siteX mX rfl rfl

/-- C5: on HTTP 429 at attempt `i` the executor sleeps exactly
`backoff_factor * 2 ^ i` and retries, consuming one attempt; and for a
transport returning 429 three times then 200, `fetch_data` returns the
200 payload after four attempts having slept `b*1, b*2, b*4`. -/
theorem c5_backoff_on_429 :
    (∀ (t : Nat → Outcome) (b : ℚ) (i rem : Nat) (bound : Bool) (body : JVal),
      t i = .resp 429 body →
      fetchAux t b i (rem + 1) bound =
        ⟨(fetchAux t b (i + 1) rem true).result,
         (fetchAux t b (i + 1) rem true).attempts + 1,
         b * 2 ^ i :: (fetchAux t b (i + 1) rem true).sleeps⟩) ∧
    (∀ (b : ℚ) (body : JVal),
      fetch_data (t429x3 body) 5 b = ⟨.ok (some body), 4, [b * 1, b * 2, b * 4]⟩) := by
  constructor
  · intro t b i rem bound body ht
    simp [fetchAux, ht]
  · intro b body
    have h : fetch_data (t429x3 body) 5 b =
        ⟨.ok (some body), 4, [b * 2 ^ 0, b * 2 ^ 1, b * 2 ^ 2]⟩ := rfl
    rw [h]
    norm_num

/-- Witness for C5: the 429 step property applied at attempt 0 of the
429-429-429-200 transport with backoff 1/2. -/
theorem c5_witness_step :
    fetchAux (t429x3 .jnull) (1 / 2) 0 (4 + 1) false =
      ⟨(fetchAux (t429x3 .jnull) (1 / 2) 1 4 true).result,
       (fetchAux (t429x3 .jnull) (1 / 2) 1 4 true).attempts + 1,
       (1 / 2 : ℚ) * 2 ^ 0 :: (fetchAux (t429x3 .jnull) (1 / 2) 1 4 true).sleeps⟩ :=
  c5_backoff_on_429.1 (t429x3 .jnull) (1 / 2) 0 4 false .jnull rfl

/-- C6: on HTTP 400 at any attempt, `fetch_data` returns `None` after
that single attempt, with no sleep and no further retry, however many
retries remain. -/
theorem c6_bad_request_no_retry :
    (∀ (t : Nat → Outcome) (b : ℚ) (i rem : Nat) (bound : Bool) (body : JVal),
      t i = .resp 400 body →
      fetchAux t b i (rem + 1) bound = ⟨.ok none, 1, []⟩) ∧
    (∀ (b : ℚ) (retries : Nat), 0 < retries →
      fetch_data (fun _ => Outcome.resp 400 .jnull) retries b = ⟨.ok none, 1, []⟩) := by
  have h1 : ∀ (t : Nat → Outcome) (b : ℚ) (i rem : Nat) (bound : Bool) (body : JVal),
      t i = .resp 400 body → fetchAux t b i (rem + 1) bound = ⟨.ok none, 1, []⟩ := by
    intro t b i rem bound body ht
    simp [fetchAux, ht]
  refine ⟨h1, ?_⟩
  intro b retries hr
  rcases retries with _ | n
  · exact absurd hr (by simp)
  · exact h1 _ b 0 n false .jnull rfl

/-- Witness for C6: a transport answering 400 with five retries allowed
still yields `None` after exactly one attempt and no sleep. -/
theorem c6_witness_first_attempt :
    fetch_data (fun _ => Outcome.resp 400 JVal.jnull) 5 (1 / 2) = ⟨.ok none, 1, []⟩ :=
  c6_bad_request_no_retry.2 (1 / 2) 5 (by norm_num)

/-- C7: a transport that always times out makes `fetch_data` perform
exactly `retries` attempts and then return `None`, with no sleeps. -/
theorem c7_exhaust_retries_timeout (b : ℚ) (retries : Nat) :
    fetch_data (fun _ => Outcome.timeout) retries b = ⟨.ok none, retries, []⟩ :=
  fetchAux_timeout b retries 0 false

/-- C8: every record produced by `filter_and_transform_outages` is some
input outage with a single added or overwritten `name` field set to the
mapped device name; every other field is preserved unchanged (the
embedding is a pure function of its arguments, so the inputs are not
mutated). -/
theorem c8_enrichment_preserves_fields (outages : List PyDict) (site_info : PyDict)
    (m : List (JVal × JVal)) (ys : List PyDict)
    (hm : deviceMapOf site_info = .ok m)
    (h : filter_and_transform_outages outages site_info = .ok ys) :
    ∀ y ∈ ys, ∃ o ∈ outages, ∃ idv nv,
      dget o "id" = some idv ∧ aget m idv = some nv ∧
      y = dinsert o "name" nv ∧ dget y "name" = some nv ∧
      ∀ k, k ≠ "name" → dget y k = dget o k := by
  rw [filter_eq, hm] at h
  intro y hy
  obtain ⟨o, ho, idv, nv, hid, hv, hyeq⟩ := ftList_mem cutoffDT m outages ys h y hy
  subst hyeq
  exact ⟨o, ho, idv, nv, hid, hv, rfl, dget_dinsert_self o "name" nv,
    fun k hk => dget_dinsert_ne o "name" k nv hk⟩

/-- Witness for C8: the first output record of the scenario is `o1` with
the `name` field `Fridge` appended and all other fields unchanged. -/
theorem c8_witness_scenario :
    ∃ o ∈ outagesX, ∃ idv nv,
      dget o "id" = some idv ∧ aget mX idv = some nv ∧
      e1 = dinsert o "name" nv ∧ dget e1 "name" = some nv ∧
      ∀ k, k ≠ "name" → dget e1 k = dget o k :=
  c8_enrichment_preserves_fields outagesX siteX mX [e1, e3] rfl rfl e1
    (List.mem_cons_self e1 [e3])

/-- C9: `filter_and_transform_outages` is idempotent: whenever it
returns a list `ys`, running it on `ys` with the same site info returns
`ys` unchanged and in the same order (and being a pure function, running
it twice on the same inputs trivially yields identical output). -/
theorem c9_idempotent (outages : List PyDict) (site_info : PyDict) (ys : List PyDict)
    (h : filter_and_transform_outages outages site_info = .ok ys) :
    filter_and_transform_outages ys site_info = .ok ys := by
  rw [filter_eq] at h ⊢
  cases hm : deviceMapOf site_info with
  | error e => rw [hm] at h; exact Except.noConfusion h
  | ok m =>
    rw [hm] at h
    exact ftList_idem cutoffDT m outages ys h

/-- Witness for C9: applying the function to the scenario output
reproduces that output. -/
theorem c9_witness_scenario :
    filter_and_transform_outages [e1, e3] siteX = .ok [e1, e3] :=
  c9_idempotent outagesX siteX [e1, e3] rfl

/-- C10: with `retries = 0` the loop body never runs: no transport
invocation, no sleep, and the result is `None`, for every transport. -/
theorem c10_zero_retries_no_attempt (t : Nat → Outcome) (b : ℚ) :
    fetch_data t 0 b = ⟨.ok none, 0, []⟩ := rfl

/-- Counterexample for C2: when `get_all_outages` returns a value — the
empty outage list — the run still aborts after the first step
(`if not outages` is true for an empty list), so it does not proceed to
fetch site info as the claim states. -/
theorem c2_empty_outages_aborts :
    mainSteps (some (.jarr [])) (some (.jobj siteX)) = [Step.fetchOutages] ∧
    Step.fetchSiteInfo ∉ mainSteps (some (.jarr [])) (some (.jobj siteX)) :=
  ⟨rfl, by decide⟩

/-- C2 as amended: the run proceeds past the first step exactly when
`get_all_outages` returns a truthy (non-empty) value, past the second
exactly when `get_site_info` then also returns a truthy value — absence
or a falsy value aborts either step — and the post step is reached
exactly when the filter/transform step then completes without
raising. -/
theorem c2_amended_control_flow (oRes sRes : Option JVal) :
    (Step.fetchSiteInfo ∈ mainSteps oRes sRes ↔
      ∃ o, oRes = some o ∧ truthy o = true) ∧
    (Step.filterTransform ∈ mainSteps oRes sRes ↔
      ∃ o s, oRes = some o ∧ truthy o = true ∧ sRes = some s ∧ truthy s = true) ∧
    (Step.post ∈ mainSteps oRes sRes ↔
      ∃ o s ys, oRes = some o ∧ truthy o = true ∧ sRes = some s ∧ truthy s = true ∧
        runFilterJ o s = .ok ys) := by
  rcases oRes with _ | o
  · simp [mainSteps]
  · by_cases hto : truthy o
    · rcases sRes with _ | s
      · simp [mainSteps, hto]
      · by_cases hts : truthy s
        · cases hrf : runFilterJ o s with
          | error e => simp [mainSteps, hto, hts, hrf]
          | ok ys => simp [mainSteps, hto, hts, hrf]
        · simp [mainSteps, hto, hts]
    · simp [mainSteps, hto]

end PyKraken
